import Mathlib

/-!
Verification development for the orgtomate library.

This file gives a shallow embedding, in Lean 4, of the three core
subsystems of the orgtomate repository:

* `getAwsResults` (src/get-aws-results.ts) — the paginating invoker;
* `AwsOrgNode` (aws-org-node source) — the organization tree builder
  and its pure traversal operations;
* `orgtomate` (src/orgtomate.ts) — the credential-scoped parallel
  fan-out executor with per-account failure isolation.

Remote AWS behaviour is modelled by passing the data the remote calls
would return (page payloads, account listings, per-parent child
listings, role-assumption outcomes) as explicit inputs.  JavaScript
runtime values are modelled by the inductive `JsValue`; JavaScript
numbers are modelled as integers (floating point is out of scope for
the properties treated here).  Promise rejection / thrown errors are
modelled with `Except String`.  Output to the diagnostic channel
(`console.error`) is modelled as an explicit list of strings, kept
separate from the primary (resolved) value.
-/

set_option linter.unusedVariables false

namespace Orgtomate

/-- Model of a JavaScript runtime value, as far as the orgtomate code
inspects such values: `null`, `undefined`, booleans, numbers (modelled
as integers), strings, arrays and plain objects (ordered key/value
lists). -/
inductive JsValue where
  | null
  | undef
  | bool (b : Bool)
  | num (n : Int)
  | str (s : String)
  | arr (elems : List JsValue)
  | obj (fields : List (String × JsValue))

/-- JavaScript truthiness, as used by `Array.prototype.filter(Boolean)`
in orgtomate and by `if (!...)` tests: `null`, `undefined`, `false`,
`0` and the empty string are falsy; arrays and objects are always
truthy.  (`NaN`, the one remaining falsy value, is a floating-point
value and outside this model.) -/
def JsValue.truthy : JsValue → Bool
  | .null => false
  | .undef => false
  | .bool b => b
  | .num n => n != 0
  | .str s => s != ""
  | .arr _ => true
  | .obj _ => true

/-! ## The paginating invoker, `getAwsResults` (src/get-aws-results.ts)

A remote response payload (`response.data`) is a JavaScript object,
modelled as an ordered association list of keys to values.  The code
under embedding is the `handlePage` recursion of `getAwsResults`:
for a pageable operation every page's payload is folded, key by key,
into the accumulator `result` via `result[key] =
(result[key] || []).concat(value)`; for a non-pageable operation the
single payload is spread-merged over the metadata-carrying `result`.
The `console.error` warning emitted when a requested `resultKey` is
missing is a diagnostic side effect and is not modelled. -/

/-- One remote response payload (`response.data`): a JavaScript object. -/
abbrev Page : Type := List (String × JsValue)

/-- Value of key `k` in a payload object (`data[k]`), `none` when absent. -/
def pageLookup (p : Page) (k : String) : Option JsValue :=
  (List.find? (fun kv => kv.1 = k) p).map (fun kv => kv.2)

/-- Lookup in the pagination accumulator `result`: maps each key to the
array accumulated for it so far. -/
def lookupKey (res : List (String × List JsValue)) (k : String) : Option (List JsValue) :=
  (res.find? (fun kv => kv.1 = k)).map (fun kv => kv.2)

/-- Assignment `result[k] = v` on the accumulator: replaces the value at
`k` in place, or appends the binding when `k` is new. -/
def setKey : List (String × List JsValue) → String → List JsValue → List (String × List JsValue)
  | [], k, v => [(k, v)]
  | kv :: rest, k, v => if kv.1 = k then (k, v) :: rest else kv :: setKey rest k v

/-- JavaScript `acc.concat(value)` where `acc` is an array: appends the
elements of `value` when `value` is an array, otherwise appends `value`
itself as a single element. -/
def concatJs (acc : List JsValue) (v : JsValue) : List JsValue :=
  match v with
  | .arr xs => acc ++ xs
  | x => acc ++ [x]

/-- The elements `concat` appends for a value: the value's elements
when it is an array, the value itself otherwise. -/
def jsElems : JsValue → List JsValue
  | .arr xs => xs
  | x => [x]

/-- The per-page merge of `handlePage` (pageable branch):
`Object.entries(data).forEach(([key, value]) => { if (!result[key])
result[key] = []; result[key] = result[key].concat(value); })`. -/
def mergePageData (res : List (String × List JsValue)) (dat : Page) :
    List (String × List JsValue) :=
  dat.foldl (fun r kv => setKey r kv.1 (concatJs ((lookupKey r kv.1).getD []) kv.2)) res

/-- The pagination bookkeeping of `getAwsResults`: the accumulated data
keys together with the `Pages` counter and the `Paged` flag of the
mutated `result.PaginationMetadata`. -/
structure PageAccum where
  pages : Nat
  paged : Bool
  dat : List (String × List JsValue)

/-- The recursive `handlePage` event listener for a pageable operation:
merges the current payload into the accumulator, increments `Pages`,
and, when the response has a next page, marks `Paged` and recurses on
the next response. -/
def handlePages (st : PageAccum) (d : Page) : List Page → PageAccum
  | [] => { pages := st.pages + 1, paged := st.paged, dat := mergePageData st.dat d }
  | d2 :: rest2 =>
      handlePages
        { pages := st.pages + 1, paged := true, dat := mergePageData st.dat d } d2 rest2

/-- The `PaginationMetadata` object held in `result` for a pageable
operation (`Pageable` is `true`; `Pages` has been initialised and
incremented once per page). -/
def pagedMetadataJs (st : PageAccum) : JsValue :=
  .obj [("Pageable", .bool true), ("Paged", .bool st.paged), ("Pages", .num st.pages)]

/-- The `PaginationMetadata` object for a non-pageable operation: the
initial `{ Pageable: false, Paged: false }`, never touched again (no
`Pages` key is ever created). -/
def nonPageableMetadataJs : JsValue :=
  .obj [("Pageable", .bool false), ("Paged", .bool false)]

/-- JavaScript object spread `{ ...a, ...b }`, up to key order: the
resulting object maps a key to its value in `b` when present there,
and to its value in `a` otherwise.  (The embedding places the
`b`-overridden keys at `b`'s position; only lookup order matters to
the properties proved below.) -/
def spreadMerge (a b : List (String × JsValue)) : List (String × JsValue) :=
  a.filter (fun kv => b.all (fun kv2 => kv2.1 ≠ kv.1)) ++ b

/-- The resolved value of `getAwsResults` for a pageable operation whose
successive response payloads are `firstPage :: restPages`: all pages
are merged in page order; with a `resultKey` the promise resolves with
`result[resultKey]` alone (the bare accumulated array, `undefined` when
the key never appeared); without one it resolves with the whole
accumulator, which carries the `PaginationMetadata` object. -/
def getAwsResultsPageable (firstPage : Page) (restPages : List Page)
    (resultKey : Option String) : JsValue :=
  let st := handlePages { pages := 0, paged := false, dat := [] } firstPage restPages
  match resultKey with
  | some k =>
      match lookupKey st.dat k with
      | some vs => .arr vs
      | none => .undef
  | none =>
      .obj (("PaginationMetadata", pagedMetadataJs st) ::
        st.dat.map (fun kv => (kv.1, JsValue.arr kv.2)))

/-- The resolved value of `getAwsResults` for a non-pageable operation:
the call is issued exactly once, so only the first available response
is consulted (`laterResponses` models what the remote would have
returned to further calls, and is never read).  The single payload is
spread-merged over the metadata-carrying result; with a `resultKey`
only that key's value is resolved. -/
def getAwsResultsNonPageable (response : Page) (laterResponses : List Page)
    (resultKey : Option String) : JsValue :=
  let unpaginateResult := spreadMerge [("PaginationMetadata", nonPageableMetadataJs)] response
  match resultKey with
  | some k => (pageLookup unpaginateResult k).getD .undef
  | none => .obj unpaginateResult

/-- The resolved value of `getAwsResults` (src/get-aws-results.ts):
dispatches on `request.isPageable()`. -/
def getAwsResults (pageable : Bool) (firstResponse : Page) (moreResponses : List Page)
    (resultKey : Option String) : JsValue :=
  if pageable then getAwsResultsPageable firstResponse moreResponses resultKey
  else getAwsResultsNonPageable firstResponse moreResponses resultKey

/-! ## The organization tree, `AwsOrgNode`

A node records the fields of the source class that the embedded
operations read: `Id`, `nodetype` (one of `ROOT`,
`ORGANIZATIONAL_UNIT`, `ACCOUNT`), the optional `Name`, `Arn` and
`Status` merged in from API listings, and the `Children` array.
The `Organization` property stored on ROOT nodes is never read by any
embedded operation and is omitted. -/
inductive AwsOrgNode where
  | mk (Id : String) (nodetype : String) (Name : Option String) (Arn : Option String)
       (Status : Option String) (Children : List AwsOrgNode)

/-- The `Id` property of a node. -/
def AwsOrgNode.Id : AwsOrgNode → String
  | .mk i _ _ _ _ _ => i

/-- The `nodetype` property of a node. -/
def AwsOrgNode.nodetype : AwsOrgNode → String
  | .mk _ t _ _ _ _ => t

/-- The `Name` property of a node (`none` models an absent property). -/
def AwsOrgNode.Name : AwsOrgNode → Option String
  | .mk _ _ nm _ _ _ => nm

/-- The `Arn` property of a node (`none` models an absent property). -/
def AwsOrgNode.Arn : AwsOrgNode → Option String
  | .mk _ _ _ ar _ _ => ar

/-- The `Status` property of a node (`none` models an absent property). -/
def AwsOrgNode.Status : AwsOrgNode → Option String
  | .mk _ _ _ _ st _ => st

/-- The `Children` array of a node. -/
def AwsOrgNode.Children : AwsOrgNode → List AwsOrgNode
  | .mk _ _ _ _ _ cs => cs

/-- Source method `isAccount`: `this.nodetype === 'ACCOUNT'`. -/
def AwsOrgNode.isAccount (n : AwsOrgNode) : Bool :=
  n.nodetype = "ACCOUNT"

/-- Source method `isOrganizationalUnit`. -/
def AwsOrgNode.isOrganizationalUnit (n : AwsOrgNode) : Bool :=
  n.nodetype = "ORGANIZATIONAL_UNIT"

/-- Source method `isRoot`: `this.nodetype === 'ROOT'`. -/
def AwsOrgNode.isRoot (n : AwsOrgNode) : Bool :=
  n.nodetype = "ROOT"

/-- Source method `getChild`: `this.Children.find((child) => child.Id === Id)`;
`none` models the `undefined` returned when no direct child matches. -/
def AwsOrgNode.getChild (n : AwsOrgNode) (Id : String) : Option AwsOrgNode :=
  n.Children.find? (fun child => child.Id = Id)

mutual

/-- Source method `getAccounts`: an ACCOUNT node returns `[this]`;
otherwise with `recursive` the children's account lists are
concatenated in child order, and without it the direct children are
filtered to those with `nodetype === 'ACCOUNT'`. -/
def AwsOrgNode.getAccounts (recursive : Bool) : AwsOrgNode → List AwsOrgNode
  | .mk i t nm ar st cs =>
    if t = "ACCOUNT" then [.mk i t nm ar st cs]
    else if recursive then AwsOrgNode.getAccountsOfList recursive cs
    else cs.filter (fun x => x.nodetype = "ACCOUNT")

/-- The fold `this.Children.forEach((child) => { accounts =
accounts.concat(child.getAccounts(recursive)); })` of `getAccounts`. -/
def AwsOrgNode.getAccountsOfList (recursive : Bool) : List AwsOrgNode → List AwsOrgNode
  | [] => []
  | c :: rest => AwsOrgNode.getAccounts recursive c ++ AwsOrgNode.getAccountsOfList recursive rest

end

/-- Source method `getAccount`:
`this.getAccounts(recursive).find((account) => account.Id === Id)`;
`none` models `undefined`. -/
def AwsOrgNode.getAccount (n : AwsOrgNode) (Id : String) (recursive : Bool) :
    Option AwsOrgNode :=
  (AwsOrgNode.getAccounts recursive n).find? (fun account => account.Id = Id)

mutual

/-- Source method `getParentsFor`: the `parents` accumulator starts
empty; only when `this.getChild(Id)` is defined (`Id` is a *direct*
child) does it become `[this]`, extended by the recursive results of
every non-ACCOUNT child. -/
def AwsOrgNode.getParentsFor : AwsOrgNode → String → List AwsOrgNode
  | .mk i t nm ar st cs, Id =>
    match (AwsOrgNode.mk i t nm ar st cs).getChild Id with
    | some _ => [AwsOrgNode.mk i t nm ar st cs] ++ AwsOrgNode.getParentsForOfList cs Id
    | none => []

/-- The fold `this.Children.forEach((child) => { if (!child.isAccount())
parents = parents.concat(child.getParentsFor(Id)); })`. -/
def AwsOrgNode.getParentsForOfList : List AwsOrgNode → String → List AwsOrgNode
  | [], _ => []
  | c :: rest, Id =>
      (if c.isAccount then [] else AwsOrgNode.getParentsFor c Id) ++
        AwsOrgNode.getParentsForOfList rest Id

end

mutual

/-- Source method `getParentOusFor`: identical to `getParentsFor`
except that the receiver is added to the accumulator only when it is
not a ROOT node. -/
def AwsOrgNode.getParentOusFor : AwsOrgNode → String → List AwsOrgNode
  | .mk i t nm ar st cs, Id =>
    match (AwsOrgNode.mk i t nm ar st cs).getChild Id with
    | some _ =>
        (if (AwsOrgNode.mk i t nm ar st cs).isRoot then [] else [AwsOrgNode.mk i t nm ar st cs]) ++
          AwsOrgNode.getParentOusForOfList cs Id
    | none => []

/-- The child fold of `getParentOusFor` over non-ACCOUNT children. -/
def AwsOrgNode.getParentOusForOfList : List AwsOrgNode → String → List AwsOrgNode
  | [], _ => []
  | c :: rest, Id =>
      (if c.isAccount then [] else AwsOrgNode.getParentOusFor c Id) ++
        AwsOrgNode.getParentOusForOfList rest Id

end

mutual

/-- All nodes of the tree rooted at a node, the node itself first,
then the subtrees of its children in order.  (Specification-side
helper for stating "appears anywhere in the tree".) -/
def AwsOrgNode.subtreeNodes : AwsOrgNode → List AwsOrgNode
  | .mk i t nm ar st cs => .mk i t nm ar st cs :: AwsOrgNode.subtreeNodesOfList cs

/-- Subtree nodes of a list of sibling trees, in order. -/
def AwsOrgNode.subtreeNodesOfList : List AwsOrgNode → List AwsOrgNode
  | [] => []
  | c :: rest => AwsOrgNode.subtreeNodes c ++ AwsOrgNode.subtreeNodesOfList rest

end

mutual

/-- Structural well-formedness of a built tree: every ACCOUNT node has
an empty `Children` array (the builder never attaches children to an
ACCOUNT node). -/
def AwsOrgNode.accountsChildless : AwsOrgNode → Bool
  | .mk _ t _ _ _ cs => (if t = "ACCOUNT" then cs.isEmpty else true) &&
      AwsOrgNode.accountsChildlessList cs

/-- `accountsChildless` over a list of sibling trees. -/
def AwsOrgNode.accountsChildlessList : List AwsOrgNode → Bool
  | [] => true
  | c :: rest => AwsOrgNode.accountsChildless c && AwsOrgNode.accountsChildlessList rest

end

/-- The number of ACCOUNT-type nodes in the subtree of a node. -/
def AwsOrgNode.countAccounts (n : AwsOrgNode) : Nat :=
  (n.subtreeNodes.filter (fun x => x.nodetype = "ACCOUNT")).length

/-- The `Id`s occurring in the tree of a node are pairwise distinct. -/
def AwsOrgNode.idsNodup (n : AwsOrgNode) : Prop :=
  (n.subtreeNodes.map AwsOrgNode.Id).Nodup

/-! ## The tree builder, `AwsOrgNode.init`

`AwsOrgNode.init` fills a seed node from remote listings and then
recursively populates its children.  The remote organization snapshot
is passed explicitly: `orgAccounts` models the once-per-tree
`Organizations.listAccounts` bulk listing, and an `OrgHier` value
models, for the node being built and each nested organizational unit,
what `listChildren(ParentId, ChildType=ACCOUNT)` (child account ids)
and `listOrganizationalUnitsForParent` (child OUs with `Id`, `Name`,
`Arn`) would return.  Remote failure during the build is fatal
(`Promise.all` rejects), so the builder returns `Except String`. -/

/-- One entry of the `listAccounts` bulk listing: the account data that
`Object.assign` merges into an ACCOUNT seed node. -/
structure AccountData where
  Id : String
  Name : Option String
  Arn : Option String
  Status : Option String

/-- The remote child-listing hierarchy under one non-ACCOUNT node:
its own `Id`, `Name` and `Arn` (as known from `listRoots`,
`describeOrganizationalUnit` or a parent's OU listing), the ids of its
direct child accounts, and the sub-hierarchies of its direct child
OUs, in listing order. -/
inductive OrgHier where
  | node (Id : String) (Name : Option String) (Arn : Option String)
         (childAccountIds : List String) (childOus : List OrgHier)

/-- The `Id` of the node a hierarchy describes. -/
def OrgHier.Id : OrgHier → String
  | .node i _ _ _ _ => i

mutual

/-- All account ids listed anywhere in a hierarchy: the direct child
accounts of the node, then those of each child OU's subtree, in
listing order. -/
def OrgHier.accountIds : OrgHier → List String
  | .node _ _ _ accIds ous => accIds ++ OrgHier.accountIdsOfList ous

/-- `OrgHier.accountIds` over a list of sibling hierarchies. -/
def OrgHier.accountIdsOfList : List OrgHier → List String
  | [] => []
  | h :: rest => OrgHier.accountIds h ++ OrgHier.accountIdsOfList rest

end

/-- The `ACCOUNT` case of `AwsOrgNode.init`: look the seed's `Id` up in
the bulk `listAccounts` data; a miss throws `Failed to find Account
ID...`; a hit merges the listed data into the seed (whose `Children`
stay empty) and returns it without populating children. -/
def initAccount (orgAccounts : List AccountData) (seedId : String) :
    Except String AwsOrgNode :=
  match orgAccounts.find? (fun x => x.Id = seedId) with
  | none => .error ("Failed to find Account ID " ++ seedId ++ " in the Organization")
  | some d => .ok (AwsOrgNode.mk d.Id "ACCOUNT" d.Name d.Arn d.Status [])

/-- Initialisation of the child accounts listed under a parent: each
seed (from `listChildren`, nodetype `ACCOUNT`) is initialised from the
bulk listing; any failure rejects the whole build. -/
def initAccounts (orgAccounts : List AccountData) : List String →
    Except String (List AwsOrgNode)
  | [] => .ok []
  | i :: rest =>
    match initAccount orgAccounts i with
    | .error e => .error e
    | .ok n =>
      match initAccounts orgAccounts rest with
      | .error e => .error e
      | .ok ns => .ok (n :: ns)

mutual

/-- The non-ACCOUNT cases of `AwsOrgNode.init` for a node whose remote
child listings are `hier`: the node's own metadata comes from the
snapshot (for a ROOT from `listRoots`, for an OU from the parent's
listing or `describeOrganizationalUnit` — both yield the snapshot's
`Name`/`Arn`, so the two OU sub-branches coincide here); then every
direct child account and child OU is initialised recursively
(`populate`) and attached, except that with `skipSuspended` a child
with `nodetype === 'ACCOUNT'` and `Status === 'SUSPENDED'` is not
attached.  Children are attached in listing order, accounts first,
matching the `flat()` of `[childAccounts, childOus]`. -/
def initNode (orgAccounts : List AccountData) (skipSuspended : Bool) (ntype : String) :
    OrgHier → Except String AwsOrgNode
  | .node i nm arn accIds ous =>
    match initAccounts orgAccounts accIds with
    | .error e => .error e
    | .ok accChildren =>
      match initOus orgAccounts skipSuspended ous with
      | .error e => .error e
      | .ok ouChildren =>
        let flatChildren := accChildren ++ ouChildren
        let kept := flatChildren.filter (fun c =>
          !(skipSuspended && c.nodetype == "ACCOUNT" && c.Status == some "SUSPENDED"))
        .ok (AwsOrgNode.mk i ntype nm arn none kept)

/-- The recursive `populate` of each child OU listed under a parent;
any failure rejects the whole build. -/
def initOus (orgAccounts : List AccountData) (skipSuspended : Bool) :
    List OrgHier → Except String (List AwsOrgNode)
  | [] => .ok []
  | h :: rest =>
    match initNode orgAccounts skipSuspended "ORGANIZATIONAL_UNIT" h with
    | .error e => .error e
    | .ok n =>
      match initOus orgAccounts skipSuspended rest with
      | .error e => .error e
      | .ok ns => .ok (n :: ns)

end

/-- What the remote snapshot holds for the target of an `init` call:
either an ACCOUNT seed (only its id matters) or a ROOT /
ORGANIZATIONAL_UNIT seed together with the child-listing hierarchy
below it. -/
inductive InitTarget where
  | account (Id : String)
  | tree (ntype : String) (hier : OrgHier)

/-- Entry point `AwsOrgNode.init(orgNode, skipSuspended, orgAccounts)`:
dispatches on the seed's `nodetype`.  Note that the ACCOUNT branch
returns before any child population, so `skipSuspended` is never
consulted for an ACCOUNT target. -/
def awsOrgNodeInit (orgAccounts : List AccountData) (skipSuspended : Bool) :
    InitTarget → Except String AwsOrgNode
  | .account i => initAccount orgAccounts i
  | .tree ntype hier => initNode orgAccounts skipSuspended ntype hier

/-- One organization snapshot, as consumed by the two resolution paths
of `orgtomate`: the bulk `listAccounts` listing and the per-parent
child listings rooted at the organization root. -/
structure Snapshot where
  orgAccounts : List AccountData
  rootHier : OrgHier

/-- The account ids produced by the `orgtomate` fast path for
`target = Root, recursive = true`: one bulk `listAccounts` call, each
entry tagged `nodetype = 'ACCOUNT'`, no tree construction. -/
def fastPathAccountIds (snap : Snapshot) : List String :=
  snap.orgAccounts.map AccountData.Id

/-- The account ids produced by the slow path for a ROOT target: build
the full tree with `AwsOrgNode.init` (with its default
`skipSuspended = false`) and collect `getAccounts(true)`. -/
def slowPathRootAccountIds (snap : Snapshot) : Except String (List String) :=
  match initNode snap.orgAccounts false "ROOT" snap.rootHier with
  | .error e => .error e
  | .ok t => .ok ((AwsOrgNode.getAccounts true t).map AwsOrgNode.Id)

/-! ## The fan-out executor, `orgtomate` (src/orgtomate.ts)

For each resolved account `orgtomate` builds a `ProcessableAccount`
(the account node plus `RoleToAssume` and `AsyncCallback`) and maps it
through `processAccount`.  The remote behaviour reached from one
account — the outcome of the `STS.assumeRole` call for the derived
role, and the outcome of the caller callback on the obtained
credentials — is carried on the model of the account itself.
`console.error` output is modelled as an explicit diagnostic list. -/

/-- Temporary credentials extracted from a successful `assumeRole`. -/
structure RoleCredentials where
  accessKeyId : String
  secretAccessKey : String
  sessionToken : String

/-- A `ProcessableAccount` together with the behaviour of the remote
calls made while processing it.  `assumeRoleResult` is the outcome of
`getAwsResults('STS', 'assumeRole', ...)`: `.error` a rejection,
`.ok none` a response with `role.Credentials` (or one of its fields)
missing, `.ok (some creds)` a usable response.  `callbackResult` is
the outcome of `AsyncCallback(roleCreds, awsAccount)`. -/
structure ProcAccount where
  Id : String
  Name : Option String
  assumeRoleResult : Except String (Option RoleCredentials)
  callbackResult : RoleCredentials → Except String JsValue

/-- Rendering of `${awsAccount.Name}` in a template string: an absent
property prints as `undefined`. -/
def showName : Option String → String
  | some s => s
  | none => "undefined"

/-- The diagnostic line written by the `catch` block of
`processAccount`:
`Failed to process account ${awsAccount.Id} :: ${awsAccount.Name} :: ${err.message}`. -/
def failLine (a : ProcAccount) (msg : String) : String :=
  "Failed to process account " ++ a.Id ++ " :: " ++ showName a.Name ++ " :: " ++ msg

/-- The effective outcome of processing one account: the first error
among role assumption, the missing-credentials check and the callback,
or the callback's value. -/
def accountOutcome (a : ProcAccount) : Except String JsValue :=
  match a.assumeRoleResult with
  | .error msg => .error msg
  | .ok none => .error "role.Credentials missing from STS Response"
  | .ok (some creds) => a.callbackResult creds

/-- Whether processing the account fails (Boolean form). -/
def accountFails (a : ProcAccount) : Bool :=
  match accountOutcome a with
  | .error _ => true
  | .ok _ => false

/-- Source function `processAccount`: every failure is caught at the
account's boundary; a diagnostic naming the account is written to the
error channel and `null` is returned into the result array.  On
success the callback's value is returned and nothing is logged. -/
def processAccount (a : ProcAccount) : JsValue × List String :=
  match a.assumeRoleResult with
  | .error msg => (JsValue.null, [failLine a msg])
  | .ok none => (JsValue.null, [failLine a "role.Credentials missing from STS Response"])
  | .ok (some creds) =>
    match a.callbackResult creds with
    | .error msg => (JsValue.null, [failLine a msg])
    | .ok v => (v, [])

/-- The fan-out and aggregation phase of `orgtomate`, after target
resolution: when resolution rejected, the error is logged and
re-thrown (top-level rejection); otherwise every account is mapped
through `processAccount` (`Promise.all` over `map(processAccount)` —
`processAccount` never throws, so the run itself cannot reject here)
and the result array is returned with falsy entries chomped by
`.filter(Boolean)`.  The first component is the primary (stdout)
result; the second is the diagnostic (stderr) channel. -/
def orgtomateRun (resolution : Except String (List ProcAccount)) :
    Except String (List JsValue) × List String :=
  match resolution with
  | .error e => (.error e, ["Failed to get Account IDs: " ++ e])
  | .ok accts =>
    let pairs := accts.map processAccount
    (.ok ((pairs.map Prod.fst).filter JsValue.truthy),
      (pairs.map Prod.snd).flatten)

/-- The number of entries in the primary result of a run (0 for a
rejected run). -/
def resultCount (run : Except String (List JsValue) × List String) : Nat :=
  match run.1 with
  | .ok l => l.length
  | .error _ => 0

/-! ## Target classification (src/orgtomate.ts, lines 255–265)

The classification regexes are embedded on the character list of the
identifier. -/

/-- One character of the class `[a-z0-9]`. -/
def isLowerAlnum (c : Char) : Bool :=
  c.isLower || c.isDigit

/-- The regex `^r-[a-z0-9]{4}$` on a character list. -/
def rootPatChars : List Char → Bool
  | c1 :: c2 :: rest => c1 = 'r' && c2 = '-' && rest.length = 4 && rest.all isLowerAlnum
  | _ => false

/-- The regex `^ou-[a-z0-9]+-[a-z0-9]+$` on a character list: after the
`ou-` prefix the remainder must consist of two nonempty `[a-z0-9]` runs
separated by a single `-` (the class excludes `-`, so the regex matches
exactly such strings). -/
def ouPatChars : List Char → Bool
  | c1 :: c2 :: c3 :: rest =>
    c1 = 'o' && c2 = 'u' && c3 = '-' &&
      (match rest.splitOn '-' with
       | [a, b] => !a.isEmpty && !b.isEmpty && a.all isLowerAlnum && b.all isLowerAlnum
       | _ => false)
  | _ => false

/-- The regex `^[0-9]{12}$` on a character list. -/
def accountPatChars (cs : List Char) : Bool :=
  cs.length = 12 && cs.all Char.isDigit

/-- The test `targetId.match(/^r-[a-z0-9]{4}$/)`. -/
def matchRootPattern (s : String) : Bool :=
  rootPatChars s.toList

/-- The test `targetId.match(/^ou-[a-z0-9]+-[a-z0-9]+$/)`. -/
def matchOuPattern (s : String) : Bool :=
  ouPatChars s.toList

/-- The test `targetId.match(/^[0-9]{12}$/)`. -/
def matchAccountPattern (s : String) : Bool :=
  accountPatChars s.toList

/-- The targeting logic of `orgtomate`: `!targetId` (a `null` target or
the empty string) or the literal `Root` or the root pattern select
`ROOT`; then the OU pattern selects `ORGANIZATIONAL_UNIT`; then the
12-digit pattern selects `ACCOUNT`; anything else throws
`Invalid Target Identifier`. -/
def classifyTarget : Option String → Except String String
  | none => .ok "ROOT"
  | some s =>
    if s = "" || s = "Root" || matchRootPattern s then .ok "ROOT"
    else if matchOuPattern s then .ok "ORGANIZATIONAL_UNIT"
    else if matchAccountPattern s then .ok "ACCOUNT"
    else .error ("Invalid Target Identifier: " ++ s)

/-! ## Derived observations used by the statements below -/

/-- Whether a JavaScript value is a plain object carrying a field
named `k`. -/
def JsValue.hasField (v : JsValue) (k : String) : Bool :=
  match v with
  | .obj fields => fields.any (fun kv => kv.1 = k)
  | _ => false

/-- Whether the `STS.assumeRole` call for this account rejects. -/
def roleAssumptionFails (a : ProcAccount) : Bool :=
  match a.assumeRoleResult with
  | .error _ => true
  | .ok _ => false

/-- Whether processing the account succeeds with a truthy value. -/
def accountTruthySuccess (a : ProcAccount) : Bool :=
  match accountOutcome a with
  | .ok v => v.truthy
  | .error _ => false

/-- The contribution of one account to the primary result: its callback
value when processing succeeded with a truthy value, nothing
otherwise. -/
def successfulTruthyValue (a : ProcAccount) : Option JsValue :=
  match accountOutcome a with
  | .ok v => if v.truthy then some v else none
  | .error _ => none

/-- The primary result list of a successfully-resolved run: the mapped
`processAccount` values with falsy entries chomped. -/
def primaryResults (accts : List ProcAccount) : List JsValue :=
  ((accts.map processAccount).map Prod.fst).filter JsValue.truthy

/-! ## Concrete fixtures

Small concrete inputs used by the counterexamples and witnesses. -/

/-- Account1 of the documented scenario tree. -/
def acct1 : AwsOrgNode :=
  .mk "111111111111" "ACCOUNT" (some "Account1") none (some "ACTIVE") []

/-- Account2 of the documented scenario tree. -/
def acct2 : AwsOrgNode :=
  .mk "222222222222" "ACCOUNT" (some "Account2") none (some "ACTIVE") []

/-- Account3 of the documented scenario tree. -/
def acct3 : AwsOrgNode :=
  .mk "333333333333" "ACCOUNT" (some "Account3") none (some "ACTIVE") []

/-- OU_A of the documented scenario tree, parenting Account1/Account2. -/
def ouA : AwsOrgNode :=
  .mk "ou-ab12-11111111" "ORGANIZATIONAL_UNIT" (some "OU_A") none none [acct1, acct2]

/-- OU_B of the documented scenario tree, parenting Account3. -/
def ouB : AwsOrgNode :=
  .mk "ou-ab12-22222222" "ORGANIZATIONAL_UNIT" (some "OU_B") none none [acct3]

/-- The documented scenario tree `Root → OU_A → [Account1, Account2]`,
`Root → OU_B → [Account3]`. -/
def scenarioRoot : AwsOrgNode :=
  .mk "r-ab12" "ROOT" (some "Root") none none [ouA, ouB]

/-- Demonstration credentials. -/
def demoCreds : RoleCredentials :=
  { accessKeyId := "AKIAEXAMPLE", secretAccessKey := "secret", sessionToken := "token" }

/-- An account whose role assumption rejects. -/
def acctFail : ProcAccount :=
  { Id := "111111111111", Name := some "one",
    assumeRoleResult := .error "AccessDenied",
    callbackResult := fun _ => .ok (.str "unreached") }

/-- An account whose callback completes successfully but resolves with
the falsy value `null`. -/
def acctNullOk : ProcAccount :=
  { Id := "222222222222", Name := some "two",
    assumeRoleResult := .ok (some demoCreds),
    callbackResult := fun _ => .ok .null }

/-- An account whose callback completes successfully with the truthy
string `"ok2"`. -/
def acctOk2 : ProcAccount :=
  { Id := "222222222222", Name := some "two",
    assumeRoleResult := .ok (some demoCreds),
    callbackResult := fun _ => .ok (.str "ok2") }

/-- An account whose callback completes successfully with the truthy
string `"ok3"`. -/
def acctOk3 : ProcAccount :=
  { Id := "333333333333", Name := some "three",
    assumeRoleResult := .ok (some demoCreds),
    callbackResult := fun _ => .ok (.str "ok3") }

/-- Three target accounts of which exactly one fails role assumption,
one callback resolving the falsy `null`. -/
def threeAccountRun : List ProcAccount := [acctFail, acctNullOk, acctOk3]

/-- Three target accounts of which exactly one fails role assumption,
both surviving callbacks resolving truthy values. -/
def threeAccountRunTruthy : List ProcAccount := [acctFail, acctOk2, acctOk3]

/-- First synthetic page of a 3-page pageable operation. -/
def pageOne : Page :=
  [("Items", .arr [.str "a1", .str "a2"]), ("NextToken", .str "t1")]

/-- Second synthetic page. -/
def pageTwo : Page :=
  [("Items", .arr [.str "b1"]), ("NextToken", .str "t2")]

/-- Third and last synthetic page. -/
def pageThree : Page :=
  [("Items", .arr [.str "c1"])]

/-- The single response of a synthetic non-pageable operation. -/
def singleResponse : Page :=
  [("Arn", .str "arn:aws:iam::111111111111:user/demo"), ("UserId", .str "AIDAEXAMPLE")]

/-- A bulk `listAccounts` listing with one suspended account. -/
def snapAccounts : List AccountData :=
  [{ Id := "111111111111", Name := some "Account1", Arn := none, Status := some "ACTIVE" },
   { Id := "222222222222", Name := some "Account2", Arn := none, Status := some "SUSPENDED" },
   { Id := "333333333333", Name := some "Account3", Arn := none, Status := some "ACTIVE" }]

/-- A child-listing hierarchy consistent with `snapAccounts`: one
account under the root, two (one suspended) under a nested OU. -/
def snapHier : OrgHier :=
  .node "r-ab12" (some "Root") none ["111111111111"]
    [.node "ou-ab12-11111111" (some "OU_A") none ["222222222222", "333333333333"] []]

/-- The organization snapshot combining the two listings above. -/
def demoSnapshot : Snapshot :=
  { orgAccounts := snapAccounts, rootHier := snapHier }

/-- Bulk-listing data of a suspended account. -/
def suspAccountData : AccountData :=
  { Id := "999999999999", Name := some "suspended", Arn := none, Status := some "SUSPENDED" }

/-- The node `AwsOrgNode.init` builds for a direct ACCOUNT target
whose listing data is `suspAccountData`. -/
def suspAccountNode : AwsOrgNode :=
  .mk "999999999999" "ACCOUNT" (some "suspended") none (some "SUSPENDED") []

/-! # Lemmas and theorems -/

/-! ## Induction principles for the nested tree types -/

theorem AwsOrgNode.nodeStrongInd (P : AwsOrgNode → Prop)
    (h : ∀ i t nm ar st cs, (∀ c, c ∈ cs → P c) → P (AwsOrgNode.mk i t nm ar st cs)) :
    ∀ n, P n := by
  have key : ∀ k (n : AwsOrgNode), sizeOf n ≤ k → P n := by
    intro k
    induction k with
    | zero =>
      intro n hn
      cases n with
      | mk i t nm ar st cs => simp at hn
    | succ k ih =>
      intro n hn
      cases n with
      | mk i t nm ar st cs =>
        apply h
        intro c hc
        apply ih
        have hlt := List.sizeOf_lt_of_mem hc
        simp at hn
        omega
  intro n
  exact key (sizeOf n) n (Nat.le_refl _)

theorem OrgHier.hierStrongInd (P : OrgHier → Prop)
    (h : ∀ i nm ar accIds ous, (∀ c, c ∈ ous → P c) → P (OrgHier.node i nm ar accIds ous)) :
    ∀ g, P g := by
  have key : ∀ k (g : OrgHier), sizeOf g ≤ k → P g := by
    intro k
    induction k with
    | zero =>
      intro g hg
      cases g with
      | node i nm ar accIds ous => simp at hg
    | succ k ih =>
      intro g hg
      cases g with
      | node i nm ar accIds ous =>
        apply h
        intro c hc
        apply ih
        have hlt := List.sizeOf_lt_of_mem hc
        simp at hg
        omega
  intro g
  exact key (sizeOf g) g (Nat.le_refl _)

/-! ## Basic tree lemmas -/

theorem nodetype_mk (i t : String) (nm ar st : Option String) (cs : List AwsOrgNode) :
    (AwsOrgNode.mk i t nm ar st cs).nodetype = t := rfl

theorem getAccounts_of_account (n : AwsOrgNode) (r : Bool) (h : n.nodetype = "ACCOUNT") :
    AwsOrgNode.getAccounts r n = [n] := by
  cases n with
  | mk i t nm ar st cs =>
    simp only [AwsOrgNode.nodetype] at h
    simp [AwsOrgNode.getAccounts, h]

theorem getAccountsOfList_append (r : Bool) (l1 l2 : List AwsOrgNode) :
    AwsOrgNode.getAccountsOfList r (l1 ++ l2) =
      AwsOrgNode.getAccountsOfList r l1 ++ AwsOrgNode.getAccountsOfList r l2 := by
  induction l1 with
  | nil => simp [AwsOrgNode.getAccountsOfList]
  | cons c rest ih => simp [AwsOrgNode.getAccountsOfList, ih]

theorem getAccountsOfList_accounts (r : Bool) (l : List AwsOrgNode)
    (h : ∀ c ∈ l, c.nodetype = "ACCOUNT") :
    AwsOrgNode.getAccountsOfList r l = l := by
  induction l with
  | nil => simp [AwsOrgNode.getAccountsOfList]
  | cons c rest ih =>
    have hc := h c (List.mem_cons_self _ _)
    rw [AwsOrgNode.getAccountsOfList, getAccounts_of_account c r hc,
      ih (fun x hx => h x (List.mem_cons_of_mem _ hx))]
    rfl

theorem subtreeNodes_mk (i t : String) (nm ar st : Option String) (cs : List AwsOrgNode) :
    (AwsOrgNode.mk i t nm ar st cs).subtreeNodes =
      AwsOrgNode.mk i t nm ar st cs :: AwsOrgNode.subtreeNodesOfList cs := rfl

theorem mem_subtreeNodesOfList (n : AwsOrgNode) (l : List AwsOrgNode) :
    n ∈ AwsOrgNode.subtreeNodesOfList l ↔ ∃ c ∈ l, n ∈ c.subtreeNodes := by
  induction l with
  | nil => simp [AwsOrgNode.subtreeNodesOfList]
  | cons c rest ih => simp [AwsOrgNode.subtreeNodesOfList, ih]

theorem self_mem_subtreeNodes (n : AwsOrgNode) : n ∈ n.subtreeNodes := by
  cases n with
  | mk i t nm ar st cs => exact List.mem_cons_self _ _

theorem accountsChildless_mk (i t : String) (nm ar st : Option String)
    (cs : List AwsOrgNode) :
    (AwsOrgNode.mk i t nm ar st cs).accountsChildless =
      ((if t = "ACCOUNT" then cs.isEmpty else true) && AwsOrgNode.accountsChildlessList cs) :=
  rfl

theorem accountsChildlessList_mem {l : List AwsOrgNode}
    (h : AwsOrgNode.accountsChildlessList l = true) :
    ∀ c ∈ l, c.accountsChildless = true := by
  induction l with
  | nil => intro c hc; cases hc
  | cons c rest ih =>
    rw [AwsOrgNode.accountsChildlessList, Bool.and_eq_true] at h
    intro x hx
    rcases List.mem_cons.mp hx with hx | hx
    · subst hx; exact h.1
    · exact ih h.2 x hx

theorem getAccountsOfList_true_eq_filter (cs : List AwsOrgNode)
    (hIH : ∀ c ∈ cs, c.accountsChildless = true →
      AwsOrgNode.getAccounts true c =
        c.subtreeNodes.filter (fun x => x.nodetype = "ACCOUNT"))
    (hcl : AwsOrgNode.accountsChildlessList cs = true) :
    AwsOrgNode.getAccountsOfList true cs =
      (AwsOrgNode.subtreeNodesOfList cs).filter (fun x => x.nodetype = "ACCOUNT") := by
  induction cs with
  | nil => simp [AwsOrgNode.getAccountsOfList, AwsOrgNode.subtreeNodesOfList]
  | cons c rest ih =>
    rw [AwsOrgNode.accountsChildlessList, Bool.and_eq_true] at hcl
    rw [AwsOrgNode.getAccountsOfList, AwsOrgNode.subtreeNodesOfList, List.filter_append,
      hIH c (List.mem_cons_self _ _) hcl.1,
      ih (fun x hx h => hIH x (List.mem_cons_of_mem _ hx) h) hcl.2]

theorem getAccounts_true_eq_filter (n : AwsOrgNode) (hwf : n.accountsChildless = true) :
    AwsOrgNode.getAccounts true n =
      n.subtreeNodes.filter (fun x => x.nodetype = "ACCOUNT") := by
  induction n using AwsOrgNode.nodeStrongInd with
  | h i t nm ar st cs ih =>
    rw [accountsChildless_mk, Bool.and_eq_true] at hwf
    by_cases ht : t = "ACCOUNT"
    · have hcs : cs = [] := by
        have := hwf.1
        rw [if_pos ht] at this
        exact List.isEmpty_iff.mp this
      subst hcs
      rw [getAccounts_of_account _ true (by simp [AwsOrgNode.nodetype, ht])]
      simp [AwsOrgNode.subtreeNodes, AwsOrgNode.subtreeNodesOfList, AwsOrgNode.nodetype, ht]
    · rw [AwsOrgNode.getAccounts]
      rw [if_neg ht, if_pos rfl]
      rw [subtreeNodes_mk, List.filter_cons]
      have : ¬ ((AwsOrgNode.mk i t nm ar st cs).nodetype = "ACCOUNT") := by
        simpa [AwsOrgNode.nodetype] using ht
      simp only [decide_eq_true_eq] at *
      rw [if_neg this]
      exact getAccountsOfList_true_eq_filter cs
        (fun c hc h => ih c hc h) hwf.2

theorem find?_id_eq_some (l : List AwsOrgNode) (a : AwsOrgNode) (X : String)
    (hnd : (l.map AwsOrgNode.Id).Nodup) (ha : a ∈ l) (hid : a.Id = X) :
    l.find? (fun x => x.Id = X) = some a := by
  induction l with
  | nil => cases ha
  | cons b rest ih =>
    rw [List.map_cons, List.nodup_cons] at hnd
    rcases List.mem_cons.mp ha with hab | harest
    · subst hab
      exact List.find?_cons_of_pos _ (by simp [hid])
    · have hbX : ¬ (b.Id = X) := by
        intro hbid
        exact hnd.1 (hbid ▸ hid ▸ List.mem_map_of_mem AwsOrgNode.Id harest)
      rw [List.find?_cons_of_neg _ (by simp [hbX])]
      exact ih hnd.2 harest

/-! ## Claims C5, C10, C3: traversal operations on a built tree -/

/-- Claim C5 (amended: on an ACCOUNT node `getAccounts(false)` returns
the node itself rather than its — empty — set of direct ACCOUNT
children; see the counterexample).  For every built tree (every
ACCOUNT node childless): `getAccounts(false)` on a non-ACCOUNT node
returns exactly the direct ACCOUNT children; `getAccounts(true)`
returns exactly the ACCOUNT-type nodes of the subtree, with
cardinality `countAccounts` and, when the tree's ids are distinct, no
duplicates; `getAccount(X, true)` returns `none` (never raises — it is
total) when no ACCOUNT descendant has id `X`, and returns the ACCOUNT
node with id `X` when one exists and ids are distinct. -/
theorem getAccounts_getAccount_spec (n : AwsOrgNode) (hwf : n.accountsChildless = true) :
    (n.nodetype ≠ "ACCOUNT" →
      AwsOrgNode.getAccounts false n = n.Children.filter (fun c => c.nodetype = "ACCOUNT")) ∧
    AwsOrgNode.getAccounts true n = n.subtreeNodes.filter (fun x => x.nodetype = "ACCOUNT") ∧
    (AwsOrgNode.getAccounts true n).length = n.countAccounts ∧
    (n.idsNodup → ((AwsOrgNode.getAccounts true n).map AwsOrgNode.Id).Nodup) ∧
    (∀ X, (∀ a ∈ AwsOrgNode.getAccounts true n, a.Id ≠ X) → n.getAccount X true = none) ∧
    (n.idsNodup → ∀ a ∈ AwsOrgNode.getAccounts true n, n.getAccount a.Id true = some a) := by
  have hfilter := getAccounts_true_eq_filter n hwf
  have hnodup : n.idsNodup → ((AwsOrgNode.getAccounts true n).map AwsOrgNode.Id).Nodup := by
    intro hids
    rw [hfilter]
    exact hids.sublist (List.Sublist.map _ (List.filter_sublist _))
  refine ⟨?_, hfilter, ?_, hnodup, ?_, ?_⟩
  · intro ht
    cases n with
    | mk i t nm ar st cs =>
      simp only [AwsOrgNode.nodetype] at ht
      rw [AwsOrgNode.getAccounts, if_neg ht, if_neg (by simp)]
      rfl
  · rw [hfilter]; rfl
  · intro X hX
    rw [AwsOrgNode.getAccount, List.find?_eq_none]
    intro a ha
    simp [hX a ha]
  · intro hids a ha
    rw [AwsOrgNode.getAccount]
    exact find?_id_eq_some _ a a.Id (hnodup hids) ha rfl

/-- Counterexample to claim C5 as stated: on a (built) tree consisting
of a single ACCOUNT node, `getAccounts(false)` returns the node
itself, not its set of direct ACCOUNT children, which is empty. -/
theorem getAccounts_false_account_counterexample :
    AwsOrgNode.getAccounts false acct1 = [acct1] ∧
    acct1.Children.filter (fun c => c.nodetype = "ACCOUNT") = [] ∧
    ([acct1] : List AwsOrgNode) ≠ [] :=
  ⟨rfl, rfl, by simp⟩

/-- Witness for claim C5 on the concrete scenario tree. -/
theorem getAccounts_getAccount_spec_witness :
    AwsOrgNode.getAccounts true scenarioRoot =
      scenarioRoot.subtreeNodes.filter (fun x => x.nodetype = "ACCOUNT") ∧
    AwsOrgNode.getAccount scenarioRoot acct3.Id true = some acct3 := by
  have h := getAccounts_getAccount_spec scenarioRoot (by decide)
  refine ⟨h.2.1, ?_⟩
  have hm : acct3 ∈ AwsOrgNode.getAccounts true scenarioRoot := by
    rw [show AwsOrgNode.getAccounts true scenarioRoot = [acct1, acct2, acct3] from rfl]
    exact List.mem_cons_of_mem _ (List.mem_cons_of_mem _ (List.mem_cons_self _ _))
  exact h.2.2.2.2.2
    (by show (scenarioRoot.subtreeNodes.map AwsOrgNode.Id).Nodup; decide) acct3 hm

/-- Claim C10: an ACCOUNT node's `getAccounts` returns the one-element
list containing the node itself, for both values of the recursive
flag (the account-node check precedes both branches). -/
theorem account_node_getAccounts_self (n : AwsOrgNode) (r : Bool)
    (h : n.nodetype = "ACCOUNT") : AwsOrgNode.getAccounts r n = [n] :=
  getAccounts_of_account n r h

/-- Witness for claim C10 at a concrete ACCOUNT node, both flags. -/
theorem account_node_getAccounts_self_witness :
    AwsOrgNode.getAccounts true acct1 = [acct1] ∧
    AwsOrgNode.getAccounts false acct1 = [acct1] :=
  ⟨account_node_getAccounts_self acct1 true rfl,
   account_node_getAccounts_self acct1 false rfl⟩

/-- Claim C3, evaluated at the failing input (code bug): on the
scenario tree `Root → OU_A → [Account1, Account2]`,
`Root → OU_B → [Account3]`, the call `getParentOusFor(Account1.Id)` on
the Root node returns `[]`, not the documented `[OU_A]`, and
`getParentsFor(Account1.Id)` likewise returns `[]` instead of
`[Root, OU_A]`: the recursion of both methods is guarded by
`if (this.getChild(Id))`, a *direct-child* membership test, so an id
two or more levels below the receiver is never found even though it is
an ACCOUNT descendant of the tree (third conjunct).  The direct-parent
call (fourth conjunct) is the only case that produces the documented
ancestor. -/
theorem getParentOusFor_scenario_bug :
    AwsOrgNode.getParentOusFor scenarioRoot "111111111111" = [] ∧
    AwsOrgNode.getParentsFor scenarioRoot "111111111111" = [] ∧
    AwsOrgNode.getAccount scenarioRoot "111111111111" true = some acct1 ∧
    AwsOrgNode.getParentOusFor ouA "111111111111" = [ouA] :=
  ⟨rfl, rfl, rfl, rfl⟩

/-! ## Lemmas about the tree builder -/

theorem subtreeNodes_of_childless {n : AwsOrgNode} (h : n.Children = []) :
    n.subtreeNodes = [n] := by
  cases n with
  | mk i t nm ar st cs =>
    simp only [AwsOrgNode.Children] at h
    subst h
    rfl

theorem initAccount_ok {A : List AccountData} {i : String} {n : AwsOrgNode}
    (h : initAccount A i = .ok n) :
    n.Id = i ∧ n.nodetype = "ACCOUNT" ∧ n.Children = [] := by
  unfold initAccount at h
  cases hf : A.find? (fun x => x.Id = i) with
  | none => rw [hf] at h; cases h
  | some d =>
    rw [hf] at h
    have hdi : d.Id = i := by
      have := List.find?_some hf
      simpa using this
    injection h with h2
    subst h2
    exact ⟨hdi, rfl, rfl⟩

theorem initAccount_isOk {A : List AccountData} {i : String}
    (h : ∃ d ∈ A, d.Id = i) : ∃ n, initAccount A i = .ok n := by
  unfold initAccount
  cases hf : A.find? (fun x => x.Id = i) with
  | none =>
    rcases h with ⟨d, hd, hdi⟩
    rw [List.find?_eq_none] at hf
    exact absurd (by simpa using hdi) (hf d hd)
  | some d => exact ⟨_, rfl⟩

theorem initAccounts_ok {A : List AccountData} : ∀ {ids : List String}
    {l : List AwsOrgNode}, initAccounts A ids = .ok l →
    l.map AwsOrgNode.Id = ids ∧ ∀ n ∈ l, n.nodetype = "ACCOUNT" ∧ n.Children = [] := by
  intro ids
  induction ids with
  | nil =>
    intro l h
    rw [initAccounts] at h
    injection h with h2
    subst h2
    exact ⟨rfl, by intro n hn; cases hn⟩
  | cons i rest ih =>
    intro l h
    rw [initAccounts] at h
    cases ha : initAccount A i with
    | error e => rw [ha] at h; cases h
    | ok n =>
      rw [ha] at h
      cases hr : initAccounts A rest with
      | error e => rw [hr] at h; cases h
      | ok ns =>
        rw [hr] at h
        injection h with h2
        subst h2
        rcases initAccount_ok ha with ⟨hid, hth, hch⟩
        rcases ih hr with ⟨hmap, hall⟩
        refine ⟨by simp [hid, hmap], ?_⟩
        intro x hx
        rcases List.mem_cons.mp hx with hx | hx
        · subst hx; exact ⟨hth, hch⟩
        · exact hall x hx

theorem initAccounts_isOk {A : List AccountData} : ∀ {ids : List String},
    (∀ i ∈ ids, ∃ d ∈ A, d.Id = i) → ∃ l, initAccounts A ids = .ok l := by
  intro ids
  induction ids with
  | nil => intro _; exact ⟨[], rfl⟩
  | cons i rest ih =>
    intro h
    rcases initAccount_isOk (h i (List.mem_cons_self _ _)) with ⟨n, hn⟩
    rcases ih (fun x hx => h x (List.mem_cons_of_mem _ hx)) with ⟨ns, hns⟩
    exact ⟨n :: ns, by rw [initAccounts, hn, hns]⟩

theorem initOus_mem {A : List AccountData} {ss : Bool} : ∀ {ous : List OrgHier}
    {l : List AwsOrgNode}, initOus A ss ous = .ok l →
    ∀ c ∈ l, ∃ g ∈ ous, initNode A ss "ORGANIZATIONAL_UNIT" g = .ok c := by
  intro ous
  induction ous with
  | nil =>
    intro l h
    rw [initOus] at h
    injection h with h2
    subst h2
    intro c hc; cases hc
  | cons g rest ih =>
    intro l h
    rw [initOus] at h
    cases hg : initNode A ss "ORGANIZATIONAL_UNIT" g with
    | error e => rw [hg] at h; cases h
    | ok n =>
      rw [hg] at h
      cases hr : initOus A ss rest with
      | error e => rw [hr] at h; cases h
      | ok ns =>
        rw [hr] at h
        injection h with h2
        subst h2
        intro c hc
        rcases List.mem_cons.mp hc with hc | hc
        · subst hc; exact ⟨g, List.mem_cons_self _ _, hg⟩
        · rcases ih hr c hc with ⟨g2, hg2, hok⟩
          exact ⟨g2, List.mem_cons_of_mem _ hg2, hok⟩

theorem initOus_isOk {A : List AccountData} {ss : Bool} : ∀ {ous : List OrgHier},
    (∀ g ∈ ous, ∃ t, initNode A ss "ORGANIZATIONAL_UNIT" g = .ok t) →
    ∃ l, initOus A ss ous = .ok l := by
  intro ous
  induction ous with
  | nil => intro _; exact ⟨[], rfl⟩
  | cons g rest ih =>
    intro h
    rcases h g (List.mem_cons_self _ _) with ⟨n, hn⟩
    rcases ih (fun x hx => h x (List.mem_cons_of_mem _ hx)) with ⟨ns, hns⟩
    exact ⟨n :: ns, by rw [initOus, hn, hns]⟩

theorem initNode_ok_inv {A : List AccountData} {ss : Bool} {nt i : String}
    {nm ar : Option String} {accIds : List String} {ous : List OrgHier} {t : AwsOrgNode}
    (h : initNode A ss nt (.node i nm ar accIds ous) = .ok t) :
    ∃ accChildren ouChildren,
      initAccounts A accIds = .ok accChildren ∧
      initOus A ss ous = .ok ouChildren ∧
      t = AwsOrgNode.mk i nt nm ar none
        ((accChildren ++ ouChildren).filter (fun c =>
          !(ss && c.nodetype == "ACCOUNT" && c.Status == some "SUSPENDED"))) := by
  rw [initNode] at h
  cases ha : initAccounts A accIds with
  | error e => rw [ha] at h; cases h
  | ok accChildren =>
    rw [ha] at h
    cases ho : initOus A ss ous with
    | error e => rw [ho] at h; cases h
    | ok ouChildren =>
      rw [ho] at h
      injection h with h2
      exact ⟨accChildren, ouChildren, rfl, rfl, h2.symm⟩

theorem mem_accountIdsOfList {ous : List OrgHier} {g : OrgHier} {j : String}
    (hg : g ∈ ous) (hj : j ∈ g.accountIds) : j ∈ OrgHier.accountIdsOfList ous := by
  induction ous with
  | nil => cases hg
  | cons g2 rest ih =>
    rw [OrgHier.accountIdsOfList]
    rcases List.mem_cons.mp hg with hg | hg
    · subst hg; exact List.mem_append_left _ hj
    · exact List.mem_append_right _ (ih hg)

theorem initNode_true_no_suspended (A : List AccountData) :
    ∀ g nt t, initNode A true nt g = .ok t →
      ∀ n ∈ t.subtreeNodes, n.Status ≠ some "SUSPENDED" := by
  intro g
  induction g using OrgHier.hierStrongInd with
  | h i nm ar accIds ous ih =>
    intro nt t hok n hn
    rcases initNode_ok_inv hok with ⟨acc, ou, hacc, hou, ht⟩
    subst ht
    rw [subtreeNodes_mk] at hn
    rcases List.mem_cons.mp hn with hn | hn
    · subst hn; simp [AwsOrgNode.Status]
    · rcases (mem_subtreeNodesOfList _ _).mp hn with ⟨c, hc, hnc⟩
      rcases List.mem_filter.mp hc with ⟨hcmem, hcpred⟩
      rcases List.mem_append.mp hcmem with hca | hco
      · rcases (initAccounts_ok hacc).2 c hca with ⟨hct, hcch⟩
        rw [subtreeNodes_of_childless hcch] at hnc
        have hnceq : n = c := List.mem_singleton.mp hnc
        subst hnceq
        simp [hct] at hcpred
        exact hcpred
      · rcases initOus_mem hou c hco with ⟨g2, hg2, hgok⟩
        exact ih g2 hg2 "ORGANIZATIONAL_UNIT" c hgok n hnc

theorem initOus_accounts (A : List AccountData) (ous : List OrgHier)
    (hIH : ∀ g ∈ ous, ∀ t, initNode A false "ORGANIZATIONAL_UNIT" g = .ok t →
      (AwsOrgNode.getAccounts true t).map AwsOrgNode.Id = g.accountIds) :
    ∀ l, initOus A false ous = .ok l →
      (AwsOrgNode.getAccountsOfList true l).map AwsOrgNode.Id =
        OrgHier.accountIdsOfList ous := by
  induction ous with
  | nil =>
    intro l h
    rw [initOus] at h
    injection h with h2
    subst h2
    rfl
  | cons g rest ih =>
    intro l h
    rw [initOus] at h
    cases hg : initNode A false "ORGANIZATIONAL_UNIT" g with
    | error e => rw [hg] at h; cases h
    | ok n =>
      rw [hg] at h
      cases hr : initOus A false rest with
      | error e => rw [hr] at h; cases h
      | ok ns =>
        rw [hr] at h
        injection h with h2
        subst h2
        rw [AwsOrgNode.getAccountsOfList, OrgHier.accountIdsOfList, List.map_append,
          hIH g (List.mem_cons_self _ _) n hg,
          ih (fun x hx => hIH x (List.mem_cons_of_mem _ hx)) ns hr]

theorem initNode_false_accounts (A : List AccountData) :
    ∀ g nt t, nt ≠ "ACCOUNT" → initNode A false nt g = .ok t →
      (AwsOrgNode.getAccounts true t).map AwsOrgNode.Id = g.accountIds := by
  intro g
  induction g using OrgHier.hierStrongInd with
  | h i nm ar accIds ous ih =>
    intro nt t hnt hok
    rcases initNode_ok_inv hok with ⟨acc, ou, hacc, hou, ht⟩
    subst ht
    have hkept : (acc ++ ou).filter (fun c =>
        !(false && c.nodetype == "ACCOUNT" && c.Status == some "SUSPENDED")) = acc ++ ou := by
      simp
    rw [hkept, AwsOrgNode.getAccounts, if_neg hnt, if_pos rfl,
      getAccountsOfList_append, List.map_append, OrgHier.accountIds]
    congr 1
    · rw [getAccountsOfList_accounts true acc (fun c hc => ((initAccounts_ok hacc).2 c hc).1)]
      exact (initAccounts_ok hacc).1
    · exact initOus_accounts A ous
        (fun g2 hg2 t2 h2 => ih g2 hg2 "ORGANIZATIONAL_UNIT" t2 (by decide) h2) ou hou

theorem initNode_isOk (A : List AccountData) (ss : Bool) :
    ∀ g nt, (∀ i ∈ g.accountIds, ∃ d ∈ A, d.Id = i) →
      ∃ t, initNode A ss nt g = .ok t := by
  intro g
  induction g using OrgHier.hierStrongInd with
  | h i nm ar accIds ous ih =>
    intro nt hfound
    rw [OrgHier.accountIds] at hfound
    have h1 : ∀ j ∈ accIds, ∃ d ∈ A, d.Id = j :=
      fun j hj => hfound j (List.mem_append_left _ hj)
    have h2 : ∀ g2 ∈ ous, ∃ t2, initNode A ss "ORGANIZATIONAL_UNIT" g2 = .ok t2 := by
      intro g2 hg2
      apply ih g2 hg2
      intro j hj
      exact hfound j (List.mem_append_right _ (mem_accountIdsOfList hg2 hj))
    rcases initAccounts_isOk h1 with ⟨acc, hacc⟩
    rcases initOus_isOk h2 with ⟨ou, hou⟩
    exact ⟨_, by rw [initNode, hacc, hou]⟩

/-! ## Claims C6 and C4: the builder's suspended-account filter and the
fast-path / slow-path parity -/

/-- Claim C6 (amended: when `init` is invoked *directly on* a suspended
ACCOUNT target the returned one-node tree is that suspended account —
the `skipSuspended` filter only guards attachment of children; see the
counterexample).  First conjunct: a tree built with
`skipSuspended = true` from a ROOT or OU seed contains no node with
`Status == "SUSPENDED"` anywhere — such ACCOUNT children are excluded
from attachment.  Second conjunct: with `skipSuspended = false` the
accounts of the built tree are exactly the accounts of the source
child listings, in listing order, suspended ones included. -/
theorem init_skipSuspended_spec (A : List AccountData) :
    (∀ g nt t, initNode A true nt g = .ok t →
      ∀ n ∈ t.subtreeNodes, n.Status ≠ some "SUSPENDED") ∧
    (∀ g nt t, nt ≠ "ACCOUNT" → initNode A false nt g = .ok t →
      (AwsOrgNode.getAccounts true t).map AwsOrgNode.Id = g.accountIds) :=
  ⟨initNode_true_no_suspended A, initNode_false_accounts A⟩

/-- Counterexample to claim C6 as stated: `AwsOrgNode.init` invoked with
`skipSuspended = true` directly on an ACCOUNT seed whose listing status
is `SUSPENDED` returns a tree (the single node) in which a
`SUSPENDED`-status node appears. -/
theorem init_skipSuspended_counterexample :
    awsOrgNodeInit [suspAccountData] true (.account "999999999999") = .ok suspAccountNode ∧
    suspAccountNode.Status = some "SUSPENDED" ∧
    suspAccountNode ∈ suspAccountNode.subtreeNodes :=
  ⟨rfl, rfl, List.mem_cons_self _ _⟩

/-- Witness for claim C6 on the concrete snapshot: the tree built with
`skipSuspended = true` keeps the two active accounts and drops the
suspended one; with `skipSuspended = false` all three listed accounts
appear. -/
theorem init_skipSuspended_spec_witness :
    acct1.Status ≠ some "SUSPENDED" ∧
    (AwsOrgNode.getAccounts true
        (.mk "r-ab12" "ROOT" (some "Root") none none
          [acct1,
           .mk "ou-ab12-11111111" "ORGANIZATIONAL_UNIT" (some "OU_A") none none
             [.mk "222222222222" "ACCOUNT" (some "Account2") none (some "SUSPENDED") [],
              acct3]])).map AwsOrgNode.Id = snapHier.accountIds :=
  ⟨(init_skipSuspended_spec snapAccounts).1 snapHier "ROOT"
      (.mk "r-ab12" "ROOT" (some "Root") none none
        [acct1, .mk "ou-ab12-11111111" "ORGANIZATIONAL_UNIT" (some "OU_A") none none [acct3]])
      rfl acct1 (List.mem_cons_of_mem _ (List.mem_cons_self _ _)),
   (init_skipSuspended_spec snapAccounts).2 snapHier "ROOT"
      (.mk "r-ab12" "ROOT" (some "Root") none none
        [acct1,
         .mk "ou-ab12-11111111" "ORGANIZATIONAL_UNIT" (some "OU_A") none none
           [.mk "222222222222" "ACCOUNT" (some "Account2") none (some "SUSPENDED") [],
            acct3]])
      (by decide) rfl⟩

/-- Claim C4: for one organization snapshot — the bulk account listing
and the child-listing hierarchy describing the same account population
— resolving `target = Root, recursive = true` via the fast path (one
bulk listing, no tree construction) yields the same set of account ids
as building the full tree and collecting `getAccounts(true)`. -/
theorem fast_slow_parity (snap : Snapshot)
    (h1 : ∀ i ∈ snap.rootHier.accountIds, i ∈ fastPathAccountIds snap)
    (h2 : ∀ i ∈ fastPathAccountIds snap, i ∈ snap.rootHier.accountIds) :
    ∃ ids, slowPathRootAccountIds snap = .ok ids ∧
      ∀ i, (i ∈ ids ↔ i ∈ fastPathAccountIds snap) := by
  have hfound : ∀ i ∈ snap.rootHier.accountIds, ∃ d ∈ snap.orgAccounts, d.Id = i := by
    intro i hi
    rcases List.mem_map.mp (h1 i hi) with ⟨d, hd, hdi⟩
    exact ⟨d, hd, hdi⟩
  rcases initNode_isOk snap.orgAccounts false snap.rootHier "ROOT" hfound with ⟨t, ht⟩
  have hids := initNode_false_accounts snap.orgAccounts snap.rootHier "ROOT" t (by decide) ht
  refine ⟨(AwsOrgNode.getAccounts true t).map AwsOrgNode.Id, ?_, ?_⟩
  · rw [slowPathRootAccountIds, ht]
  · intro i
    rw [hids]
    exact ⟨h1 i, h2 i⟩

/-- Witness for claim C4 on the concrete snapshot. -/
theorem fast_slow_parity_witness :
    ∃ ids, slowPathRootAccountIds demoSnapshot = .ok ids ∧
      ∀ i, (i ∈ ids ↔ i ∈ fastPathAccountIds demoSnapshot) :=
  fast_slow_parity demoSnapshot (by decide) (by decide)

/-! ## Lemmas about the fan-out executor -/

theorem processAccount_eq (a : ProcAccount) :
    processAccount a =
      match accountOutcome a with
      | .error msg => (JsValue.null, [failLine a msg])
      | .ok v => (v, []) := by
  cases ha : a.assumeRoleResult with
  | error msg => simp [processAccount, accountOutcome, ha]
  | ok oc =>
    cases oc with
    | none => simp [processAccount, accountOutcome, ha]
    | some creds =>
      cases hcb : a.callbackResult creds <;>
        simp [processAccount, accountOutcome, ha, hcb]

theorem orgtomateRun_ok_fst (accts : List ProcAccount) :
    (orgtomateRun (.ok accts)).1 = .ok (primaryResults accts) := rfl

theorem orgtomateRun_ok_snd (accts : List ProcAccount) :
    (orgtomateRun (.ok accts)).2 =
      (accts.map (fun a => (processAccount a).2)).flatten := by
  show ((accts.map processAccount).map Prod.snd).flatten = _
  rw [List.map_map]
  rfl

theorem primaryResults_eq_filterMap (accts : List ProcAccount) :
    primaryResults accts = accts.filterMap successfulTruthyValue := by
  induction accts with
  | nil => rfl
  | cons a rest ih =>
    have hstep : primaryResults (a :: rest) =
        (if ((processAccount a).1).truthy then [(processAccount a).1] else []) ++
          primaryResults rest := by
      rw [primaryResults, primaryResults, List.map_cons, List.map_cons, List.filter_cons]
      cases h : (processAccount a).1.truthy <;> simp [h]
    rw [hstep, List.filterMap_cons, ih]
    cases ho : accountOutcome a with
    | error msg =>
      have h1 : (processAccount a).1 = JsValue.null := by rw [processAccount_eq, ho]
      have h2 : successfulTruthyValue a = none := by rw [successfulTruthyValue, ho]
      rw [h1, h2]
      simp [JsValue.truthy]
    | ok v =>
      have h1 : (processAccount a).1 = v := by rw [processAccount_eq, ho]
      have h2 : successfulTruthyValue a = if v.truthy then some v else none := by
        rw [successfulTruthyValue, ho]
      rw [h1, h2]
      cases hv : v.truthy <;> simp [hv]

theorem primaryResults_append (l1 l2 : List ProcAccount) :
    primaryResults (l1 ++ l2) = primaryResults l1 ++ primaryResults l2 := by
  simp [primaryResults, List.filter_append]

theorem successfulTruthyValue_isSome (a : ProcAccount)
    (h : accountFails a = false → accountTruthySuccess a = true) :
    (successfulTruthyValue a).isSome = !(accountFails a) := by
  cases ho : accountOutcome a with
  | error msg => simp [successfulTruthyValue, accountFails, ho]
  | ok v =>
    have hf : accountFails a = false := by simp [accountFails, ho]
    have ht : v.truthy = true := by
      have := h hf
      rw [accountTruthySuccess, ho] at this
      exact this
    simp [successfulTruthyValue, ho, ht, hf]

/-! ## Claims C1 and C9: partial-failure isolation and falsy chomping -/

/-- Claim C1 (amended: the returned list has one entry per account whose
callback completed successfully *with a truthy value* — a successful
falsy result is chomped by `filter(Boolean)` exactly like a failure;
see the counterexample).  For every resolved account list: the run
resolves without a top-level exception with exactly the
successful truthy callback values in dispatch order, failed accounts
absent (first conjunct); every primary entry is the callback value of
some account (second conjunct: diagnostics never reach the primary
channel); each failed account — role assumption or callback — emits a
diagnostic line on the error channel naming its `Id` (third conjunct);
and for 3 accounts of which exactly one fails, the surviving callbacks
resolving truthy values, exactly 2 results are returned (fourth
conjunct). -/
theorem orgtomate_partial_failure_isolation (accts : List ProcAccount) :
    (orgtomateRun (.ok accts)).1 = .ok (accts.filterMap successfulTruthyValue) ∧
    (∀ v ∈ accts.filterMap successfulTruthyValue,
       ∃ a ∈ accts, accountOutcome a = .ok v) ∧
    (∀ a ∈ accts, ∀ msg, accountOutcome a = .error msg →
       ∃ line ∈ (orgtomateRun (.ok accts)).2, ∃ pre post, line = pre ++ (a.Id ++ post)) ∧
    (accts.length = 3 → accts.countP accountFails = 1 →
     (∀ a ∈ accts, accountFails a = false → accountTruthySuccess a = true) →
     resultCount (orgtomateRun (.ok accts)) = 2) := by
  refine ⟨by rw [orgtomateRun_ok_fst, primaryResults_eq_filterMap], ?_, ?_, ?_⟩
  · intro v hv
    rcases List.mem_filterMap.mp hv with ⟨a, ha, hfa⟩
    refine ⟨a, ha, ?_⟩
    cases ho : accountOutcome a with
    | error msg =>
      have h2 : successfulTruthyValue a = none := by rw [successfulTruthyValue, ho]
      rw [h2] at hfa
      cases hfa
    | ok w =>
      have h2 : successfulTruthyValue a = if w.truthy then some w else none := by
        rw [successfulTruthyValue, ho]
      rw [h2] at hfa
      by_cases hw : w.truthy = true
      · rw [if_pos hw] at hfa
        injection hfa with hfa
        rw [← hfa]
      · rw [if_neg hw] at hfa
        cases hfa
  · intro a ha msg ho
    have hsnd : (processAccount a).2 = [failLine a msg] := by rw [processAccount_eq, ho]
    refine ⟨failLine a msg, ?_, "Failed to process account ",
      " :: " ++ (showName a.Name ++ (" :: " ++ msg)), ?_⟩
    · rw [orgtomateRun_ok_snd]
      exact List.mem_flatten_of_mem (List.mem_map_of_mem _ ha)
        (by rw [hsnd]; exact List.mem_cons_self _ _)
    · simp [failLine, String.append_assoc]
  · intro hlen hcount htruthy
    have hres : resultCount (orgtomateRun (.ok accts)) =
        (accts.filterMap successfulTruthyValue).length := by
      rw [resultCount, orgtomateRun_ok_fst, primaryResults_eq_filterMap]
    rw [hres, List.length_filterMap_eq_countP]
    have hcongr : accts.countP (fun a => (successfulTruthyValue a).isSome) =
        accts.countP (fun a => ¬ accountFails a) := by
      apply List.countP_congr
      intro a ha
      rw [successfulTruthyValue_isSome a (htruthy a ha)]
      cases accountFails a <;> simp
    rw [hcongr]
    have := List.length_eq_countP_add_countP (p := accountFails) accts
    omega

/-- Counterexample to claim C1 as stated: three target accounts of
which exactly one fails role assumption, the two others' callbacks
completing successfully (one resolving the falsy `null`), yield one
result, not two. -/
theorem orgtomate_three_accounts_counterexample :
    (orgtomateRun (.ok threeAccountRun)).1 = .ok [JsValue.str "ok3"] ∧
    threeAccountRun.countP roleAssumptionFails = 1 ∧
    threeAccountRun.length = 3 ∧
    resultCount (orgtomateRun (.ok threeAccountRun)) = 1 :=
  ⟨rfl, rfl, rfl, rfl⟩

/-- Witness for claim C1: the same three-account run with both
surviving callbacks truthy yields exactly two results. -/
theorem orgtomate_partial_failure_isolation_witness :
    resultCount (orgtomateRun (.ok threeAccountRunTruthy)) = 2 :=
  (orgtomate_partial_failure_isolation threeAccountRunTruthy).2.2.2 rfl rfl
    (by decide)

theorem primaryResults_single_of_falsy_ok {a : ProcAccount} {v : JsValue}
    (ho : accountOutcome a = .ok v) (hv : v.truthy = false) :
    primaryResults [a] = [] := by
  have h1 : (processAccount a).1 = v := by rw [processAccount_eq, ho]
  simp [primaryResults, h1, hv]

theorem primaryResults_single_of_error {a : ProcAccount} {msg : String}
    (ho : accountOutcome a = .error msg) :
    primaryResults [a] = [] := by
  have h1 : (processAccount a).1 = JsValue.null := by rw [processAccount_eq, ho]
  simp [primaryResults, h1, JsValue.truthy]

/-- Claim C9: the primary result list is the dispatched `processAccount`
values with every falsy element removed (`filter(Boolean)`), so an
account whose callback succeeds with a falsy value (`null`, `false`,
`0`, the empty string) contributes no entry — removing such an account
from the run leaves the primary output unchanged (second conjunct),
and replacing it by an account whose role assumption fails is
indistinguishable in the primary output (third conjunct). -/
theorem orgtomate_falsy_chomped (accts : List ProcAccount) :
    (orgtomateRun (.ok accts)).1 =
      .ok ((accts.map (fun a => (processAccount a).1)).filter JsValue.truthy) ∧
    (∀ pre post a v, accountOutcome a = .ok v → v.truthy = false →
      (orgtomateRun (.ok (pre ++ a :: post))).1 = (orgtomateRun (.ok (pre ++ post))).1) ∧
    (∀ pre post a v msg, accountOutcome a = .ok v → v.truthy = false →
      (orgtomateRun (.ok (pre ++ a :: post))).1 =
        (orgtomateRun (.ok (pre ++
          { a with assumeRoleResult := .error msg } :: post))).1) := by
  refine ⟨?_, ?_, ?_⟩
  · rw [orgtomateRun_ok_fst]
    rw [primaryResults, List.map_map]
    rfl
  · intro pre post a v ho hv
    rw [orgtomateRun_ok_fst, orgtomateRun_ok_fst]
    rw [show a :: post = [a] ++ post from rfl, primaryResults_append, primaryResults_append,
      primaryResults_append, primaryResults_single_of_falsy_ok ho hv]
    simp
  · intro pre post a v msg ho hv
    rw [orgtomateRun_ok_fst, orgtomateRun_ok_fst]
    have herr : accountOutcome { a with assumeRoleResult := .error msg } = .error msg := rfl
    rw [show a :: post = [a] ++ post from rfl,
      show ({ a with assumeRoleResult := .error msg } : ProcAccount) :: post =
        [{ a with assumeRoleResult := .error msg }] ++ post from rfl,
      primaryResults_append, primaryResults_append, primaryResults_append,
      primaryResults_append, primaryResults_single_of_falsy_ok ho hv,
      primaryResults_single_of_error herr]

/-- Witness for claim C9: dropping the account whose callback
successfully resolved `null` from a concrete run, or replacing it by
one whose role assumption fails, leaves the primary output unchanged. -/
theorem orgtomate_falsy_chomped_witness :
    (orgtomateRun (.ok ([acctOk3] ++ acctNullOk :: []))).1 =
      (orgtomateRun (.ok ([acctOk3] ++ []))).1 ∧
    (orgtomateRun (.ok ([acctOk3] ++ acctNullOk :: []))).1 =
      (orgtomateRun (.ok ([acctOk3] ++
        { acctNullOk with assumeRoleResult := .error "AccessDenied" } :: []))).1 :=
  ⟨(orgtomate_falsy_chomped []).2.1 [acctOk3] [] acctNullOk .null rfl rfl,
   (orgtomate_falsy_chomped []).2.2 [acctOk3] [] acctNullOk .null "AccessDenied" rfl rfl⟩

/-! ## Lemmas about the paginating invoker -/

theorem concatJs_eq (acc : List JsValue) (v : JsValue) :
    concatJs acc v = acc ++ jsElems v := by
  cases v <;> rfl

theorem lookupKey_nil (k : String) : lookupKey [] k = none := rfl

theorem lookupKey_cons (kv : String × List JsValue) (rest : List (String × List JsValue))
    (k : String) :
    lookupKey (kv :: rest) k = if kv.1 = k then some kv.2 else lookupKey rest k := by
  by_cases h : kv.1 = k
  · rw [if_pos h, lookupKey, List.find?_cons_of_pos _ (by simp [h])]
    rfl
  · rw [if_neg h, lookupKey, List.find?_cons_of_neg _ (by simp [h])]
    rfl

theorem pageLookup_cons (kv : String × JsValue) (rest : Page) (k : String) :
    pageLookup (kv :: rest) k = if kv.1 = k then some kv.2 else pageLookup rest k := by
  by_cases h : kv.1 = k
  · rw [if_pos h, pageLookup, List.find?_cons_of_pos _ (by simp [h])]
    rfl
  · rw [if_neg h, pageLookup, List.find?_cons_of_neg _ (by simp [h])]
    rfl

theorem lookupKey_setKey_self (res : List (String × List JsValue)) (k : String)
    (v : List JsValue) : lookupKey (setKey res k v) k = some v := by
  induction res with
  | nil => rw [setKey, lookupKey_cons, if_pos rfl]
  | cons kv rest ih =>
    rw [setKey]
    by_cases h : kv.1 = k
    · rw [if_pos h, lookupKey_cons, if_pos rfl]
    · rw [if_neg h, lookupKey_cons, if_neg h]
      exact ih

theorem lookupKey_setKey_other (res : List (String × List JsValue)) (k1 : String)
    (v : List JsValue) (k : String) (h : k1 ≠ k) :
    lookupKey (setKey res k1 v) k = lookupKey res k := by
  induction res with
  | nil =>
    rw [setKey, lookupKey_cons, if_neg h]
  | cons kv rest ih =>
    rw [setKey]
    by_cases hh : kv.1 = k1
    · rw [if_pos hh, lookupKey_cons, if_neg h, lookupKey_cons, if_neg (hh ▸ h)]
    · rw [if_neg hh, lookupKey_cons, lookupKey_cons, ih]

theorem mergePageData_cons (res : List (String × List JsValue)) (kv : String × JsValue)
    (rest : Page) :
    mergePageData res (kv :: rest) =
      mergePageData (setKey res kv.1 (concatJs ((lookupKey res kv.1).getD []) kv.2)) rest :=
  rfl

theorem mergePageData_lookup_of_not_mem {p : Page} {k : String}
    (h : ∀ kv ∈ p, kv.1 ≠ k) :
    ∀ res, lookupKey (mergePageData res p) k = lookupKey res k := by
  induction p with
  | nil => intro res; rfl
  | cons kv rest ih =>
    intro res
    rw [mergePageData_cons,
      ih (fun x hx => h x (List.mem_cons_of_mem _ hx)),
      lookupKey_setKey_other _ _ _ _ (h kv (List.mem_cons_self _ _))]

theorem mergePageData_lookup_of_mem {p : Page} {k : String} {v : JsValue}
    (hnd : (p.map Prod.fst).Nodup) (hfind : pageLookup p k = some v) :
    ∀ res, lookupKey (mergePageData res p) k =
      some (((lookupKey res k).getD []) ++ jsElems v) := by
  induction p with
  | nil => cases hfind
  | cons kv rest ih =>
    intro res
    rw [List.map_cons, List.nodup_cons] at hnd
    rw [mergePageData_cons]
    by_cases h : kv.1 = k
    · have hv : kv.2 = v := by
        rw [pageLookup_cons, if_pos h] at hfind
        injection hfind
      have hrest : ∀ kv2 ∈ rest, kv2.1 ≠ k := by
        intro kv2 hkv2 hk2
        exact hnd.1 (h ▸ hk2 ▸ List.mem_map_of_mem Prod.fst hkv2)
      rw [mergePageData_lookup_of_not_mem hrest, h, lookupKey_setKey_self, hv,
        concatJs_eq]
    · have hfind2 : pageLookup rest k = some v := by
        rw [pageLookup_cons, if_neg h] at hfind
        exact hfind
      rw [ih hnd.2 hfind2, lookupKey_setKey_other _ _ _ _ h]

/-! ## Claims C2 and C8: pagination -/

/-- Claim C2 (amended: the pagination metadata
`{Pageable: true, Paged: true, Pages: 3}` is recorded in the invoker's
accumulated result object and is part of the resolved value only when
*no* `resultKey` is given — a `resultKey` call resolves with the bare
concatenated array, carrying no metadata; see the counterexample).
For every pageable operation returning exactly 3 pages whose payloads
carry array values under the `resultKey`: the `resultKey` call
resolves with the concatenation of the three pages' values in page
order (first conjunct), and the no-`resultKey` call resolves with an
object whose first field is
`PaginationMetadata = {Pageable: true, Paged: true, Pages: 3}` (second
conjunct). -/
theorem pagedInvoker_three_pages (p1 p2 p3 : Page) (k : String)
    (v1 v2 v3 : List JsValue)
    (h1 : pageLookup p1 k = some (.arr v1))
    (h2 : pageLookup p2 k = some (.arr v2))
    (h3 : pageLookup p3 k = some (.arr v3))
    (n1 : (p1.map Prod.fst).Nodup) (n2 : (p2.map Prod.fst).Nodup)
    (n3 : (p3.map Prod.fst).Nodup) :
    getAwsResults true p1 [p2, p3] (some k) = .arr (v1 ++ v2 ++ v3) ∧
    (∃ fields, getAwsResults true p1 [p2, p3] none = .obj fields ∧
      fields.head? = some ("PaginationMetadata",
        .obj [("Pageable", .bool true), ("Paged", .bool true), ("Pages", .num 3)])) := by
  have hdat : lookupKey
      (handlePages { pages := 0, paged := false, dat := [] } p1 [p2, p3]).dat k =
      some ((([] ++ v1) ++ v2) ++ v3) := by
    show lookupKey (mergePageData (mergePageData (mergePageData [] p1) p2) p3) k = _
    rw [mergePageData_lookup_of_mem n3 h3, mergePageData_lookup_of_mem n2 h2,
      mergePageData_lookup_of_mem n1 h1, lookupKey_nil]
    rfl
  constructor
  · have e1 : getAwsResults true p1 [p2, p3] (some k) =
        match lookupKey
            (handlePages { pages := 0, paged := false, dat := [] } p1 [p2, p3]).dat k with
        | some vs => JsValue.arr vs
        | none => JsValue.undef := rfl
    rw [e1, hdat]
    simp
  · exact ⟨_, rfl, rfl⟩

/-- Counterexample to claim C2 as stated: a concrete 3-page call with a
`resultKey` resolves with the bare concatenated array — a value that
carries no `PaginationMetadata` (it is not even an object). -/
theorem pagedInvoker_resultKey_no_metadata_counterexample :
    getAwsResults true pageOne [pageTwo, pageThree] (some "Items") =
      .arr [.str "a1", .str "a2", .str "b1", .str "c1"] ∧
    (getAwsResults true pageOne [pageTwo, pageThree] (some "Items")).hasField
      "PaginationMetadata" = false ∧
    (getAwsResults true pageOne [pageTwo, pageThree] none).hasField
      "PaginationMetadata" = true :=
  ⟨rfl, rfl, rfl⟩

/-- Witness for claim C2 at the concrete 3-page fixture. -/
theorem pagedInvoker_three_pages_witness :
    getAwsResults true pageOne [pageTwo, pageThree] (some "Items") =
      .arr ([.str "a1", .str "a2"] ++ [.str "b1"] ++ [.str "c1"]) ∧
    (∃ fields, getAwsResults true pageOne [pageTwo, pageThree] none = .obj fields ∧
      fields.head? = some ("PaginationMetadata",
        .obj [("Pageable", .bool true), ("Paged", .bool true), ("Pages", .num 3)])) :=
  pagedInvoker_three_pages pageOne pageTwo pageThree "Items"
    [.str "a1", .str "a2"] [.str "b1"] [.str "c1"]
    rfl rfl rfl (by decide) (by decide) (by decide)

/-- Claim C8: a non-pageable operation issues the underlying call
exactly once (the result is independent of whatever later responses
the remote would return — first conjunct); without a `resultKey` it
resolves with the single response spread-merged over the
`PaginationMetadata = {Pageable: false, Paged: false}` result object
(second and third conjuncts: the merged object keeps the metadata and
every response field); with a `resultKey` it resolves with only that
key's value from the single response (fourth conjunct), `undefined`
when absent (fifth conjunct). -/
theorem nonPageable_single_call (first : Page) (rest rest2 : List Page) :
    (∀ rk, getAwsResults false first rest rk = getAwsResults false first rest2 rk) ∧
    (getAwsResults false first rest none =
      .obj (spreadMerge [("PaginationMetadata", nonPageableMetadataJs)] first)) ∧
    ((pageLookup first "PaginationMetadata" = none →
      pageLookup (spreadMerge [("PaginationMetadata", nonPageableMetadataJs)] first)
        "PaginationMetadata" = some nonPageableMetadataJs) ∧
     (∀ k v, pageLookup first k = some v →
      pageLookup (spreadMerge [("PaginationMetadata", nonPageableMetadataJs)] first)
        k = some v)) ∧
    (∀ k v, pageLookup first k = some v →
      getAwsResults false first rest (some k) = v) ∧
    (∀ k, k ≠ "PaginationMetadata" → pageLookup first k = none →
      getAwsResults false first rest (some k) = .undef) := by
  have hentry : ∀ {k : String} {v : JsValue}, pageLookup first k = some v →
      ∃ e ∈ first, e.1 = k := by
    intro k v hk
    rw [pageLookup] at hk
    cases hfound : List.find? (fun kv => kv.1 = k) first with
    | none => rw [hfound] at hk; cases hk
    | some e =>
      have he := List.mem_of_find?_eq_some hfound
      have hp := List.find?_some hfound
      exact ⟨e, he, by simpa using hp⟩
  have hmerge : ∀ k v, pageLookup first k = some v →
      pageLookup (spreadMerge [("PaginationMetadata", nonPageableMetadataJs)] first)
        k = some v := by
    intro k v hk
    rcases hentry hk with ⟨e, he, hek⟩
    rw [spreadMerge, pageLookup, List.find?_append]
    have hnone : List.find? (fun kv => kv.1 = k)
        (List.filter (fun kv => first.all (fun kv2 => kv2.1 ≠ kv.1))
          [("PaginationMetadata", nonPageableMetadataJs)]) = none := by
      rw [List.find?_eq_none]
      intro x hx
      rcases List.mem_filter.mp hx with ⟨hxa, hxP⟩
      have hxeq : x = ("PaginationMetadata", nonPageableMetadataJs) :=
        List.mem_singleton.mp hxa
      subst hxeq
      simp only [List.all_eq_true, decide_eq_true_eq] at hxP ⊢
      intro hPMk
      exact (hxP e he) (hek.trans hPMk.symm)
    rw [hnone, Option.none_or]
    exact hk
  refine ⟨fun rk => rfl, rfl, ⟨?_, hmerge⟩, ?_, ?_⟩
  · intro hnoPM
    rw [pageLookup] at hnoPM
    have hallPM : ∀ e ∈ first, ¬ (e.1 = "PaginationMetadata") := by
      intro e he
      have := List.find?_eq_none.mp (Option.map_eq_none.mp hnoPM) e he
      simpa using this
    rw [spreadMerge, pageLookup, List.find?_append]
    have hkeep : List.filter (fun kv => first.all (fun kv2 => kv2.1 ≠ kv.1))
        [("PaginationMetadata", nonPageableMetadataJs)] =
        [("PaginationMetadata", nonPageableMetadataJs)] := by
      rw [List.filter_cons, if_pos]
      · rfl
      · simp only [List.all_eq_true, decide_eq_true_eq]
        intro e he
        exact hallPM e he
    rw [hkeep, List.find?_cons_of_pos _ (by simp)]
    rfl
  · intro k v hk
    have e1 : getAwsResults false first rest (some k) =
        (pageLookup (spreadMerge [("PaginationMetadata", nonPageableMetadataJs)] first)
          k).getD .undef := rfl
    rw [e1, hmerge k v hk]
    rfl
  · intro k hkPM hknone
    have e1 : getAwsResults false first rest (some k) =
        (pageLookup (spreadMerge [("PaginationMetadata", nonPageableMetadataJs)] first)
          k).getD .undef := rfl
    rw [e1]
    have hfirstnone : List.find? (fun kv => kv.1 = k) first = none :=
      Option.map_eq_none.mp (by rw [pageLookup] at hknone; exact hknone)
    have hnone2 : pageLookup
        (spreadMerge [("PaginationMetadata", nonPageableMetadataJs)] first) k = none := by
      rw [spreadMerge, pageLookup, List.find?_append, hfirstnone]
      have hfnone : List.find? (fun kv => kv.1 = k)
          (List.filter (fun kv => first.all (fun kv2 => kv2.1 ≠ kv.1))
            [("PaginationMetadata", nonPageableMetadataJs)]) = none := by
        rw [List.find?_eq_none]
        intro x hx
        rcases List.mem_filter.mp hx with ⟨hxa, _⟩
        have hxeq : x = ("PaginationMetadata", nonPageableMetadataJs) :=
          List.mem_singleton.mp hxa
        subst hxeq
        simp only [decide_eq_true_eq]
        intro hPMk
        exact hkPM hPMk.symm
      rw [hfnone]
      rfl
    rw [hnone2]
    rfl

/-- Witness for claim C8 at the concrete single-response fixture. -/
theorem nonPageable_single_call_witness :
    getAwsResults false singleResponse [pageTwo] (some "Arn") =
      getAwsResults false singleResponse [] (some "Arn") ∧
    getAwsResults false singleResponse [] (some "Arn") =
      .str "arn:aws:iam::111111111111:user/demo" ∧
    pageLookup (spreadMerge [("PaginationMetadata", nonPageableMetadataJs)] singleResponse)
      "PaginationMetadata" = some nonPageableMetadataJs ∧
    getAwsResults false singleResponse [] (some "Missing") = .undef :=
  ⟨(nonPageable_single_call singleResponse [pageTwo] []).1 (some "Arn"),
   (nonPageable_single_call singleResponse [] []).2.2.2.1 "Arn"
     (.str "arn:aws:iam::111111111111:user/demo") rfl,
   (nonPageable_single_call singleResponse [] []).2.2.1.1 rfl,
   (nonPageable_single_call singleResponse [] []).2.2.2.2 "Missing" (by decide) rfl⟩

/-! ## Claim C7: target classification -/

theorem rootPatChars_inv {cs : List Char} (h : rootPatChars cs = true) :
    ∃ rest, cs = 'r' :: '-' :: rest := by
  cases cs with
  | nil => simp [rootPatChars] at h
  | cons c1 t1 =>
    cases t1 with
    | nil => simp [rootPatChars] at h
    | cons c2 rest =>
      simp only [rootPatChars, Bool.and_eq_true, decide_eq_true_eq] at h
      exact ⟨rest, by rw [h.1.1.1, h.1.1.2]⟩

theorem ouPatChars_inv {cs : List Char} (h : ouPatChars cs = true) :
    ∃ rest, cs = 'o' :: 'u' :: '-' :: rest := by
  cases cs with
  | nil => simp [ouPatChars] at h
  | cons c1 t1 =>
    cases t1 with
    | nil => simp [ouPatChars] at h
    | cons c2 t2 =>
      cases t2 with
      | nil => simp [ouPatChars] at h
      | cons c3 rest =>
        simp only [ouPatChars, Bool.and_eq_true, decide_eq_true_eq] at h
        exact ⟨rest, by rw [h.1.1.1, h.1.1.2, h.1.2]⟩

theorem accountPatChars_inv {cs : List Char} (h : accountPatChars cs = true) :
    cs.length = 12 ∧ ∀ c ∈ cs, c.isDigit = true := by
  rw [accountPatChars, Bool.and_eq_true] at h
  exact ⟨by simpa using h.1, by simpa [List.all_eq_true] using h.2⟩

theorem ouPat_excludes (s : String) (h : matchOuPattern s = true) :
    s ≠ "" ∧ s ≠ "Root" ∧ matchRootPattern s = false := by
  rcases ouPatChars_inv (h : ouPatChars s.toList = true) with ⟨rest, hrest⟩
  refine ⟨?_, ?_, ?_⟩
  · intro he
    rw [he] at hrest
    exact absurd hrest (by simp)
  · intro he
    rw [he] at hrest
    have h2 : (['R', 'o', 'o', 't'] : List Char) = 'o' :: 'u' :: '-' :: rest := hrest
    injection h2 with ha _
    exact absurd ha (by decide)
  · cases hb : matchRootPattern s with
    | false => rfl
    | true =>
      rcases rootPatChars_inv (hb : rootPatChars s.toList = true) with ⟨rest2, hrest2⟩
      rw [hrest] at hrest2
      injection hrest2 with ha _
      exact absurd ha (by decide)

theorem acctPat_excludes (s : String) (h : matchAccountPattern s = true) :
    s ≠ "" ∧ s ≠ "Root" ∧ matchRootPattern s = false ∧ matchOuPattern s = false := by
  rcases accountPatChars_inv (h : accountPatChars s.toList = true) with ⟨hlen, hdig⟩
  refine ⟨?_, ?_, ?_, ?_⟩
  · intro he
    rw [he] at hlen
    exact absurd hlen (by decide)
  · intro he
    rw [he] at hlen
    exact absurd hlen (by decide)
  · cases hb : matchRootPattern s with
    | false => rfl
    | true =>
      rcases rootPatChars_inv (hb : rootPatChars s.toList = true) with ⟨rest, hrest⟩
      have hd : ('r' : Char).isDigit = true :=
        hdig 'r' (by rw [hrest]; exact List.mem_cons_self _ _)
      exact absurd hd (by decide)
  · cases hb : matchOuPattern s with
    | false => rfl
    | true =>
      rcases ouPatChars_inv (hb : ouPatChars s.toList = true) with ⟨rest, hrest⟩
      have hd : ('o' : Char).isDigit = true :=
        hdig 'o' (by rw [hrest]; exact List.mem_cons_self _ _)
      exact absurd hd (by decide)

theorem classifyTarget_some (s : String) :
    classifyTarget (some s) =
      if s = "" || s = "Root" || matchRootPattern s then .ok "ROOT"
      else if matchOuPattern s then .ok "ORGANIZATIONAL_UNIT"
      else if matchAccountPattern s then .ok "ACCOUNT"
      else .error ("Invalid Target Identifier: " ++ s) := rfl

/-- Claim C7 (amended: the falsy-target test `!targetId` sends the
*empty string*, not only `null`, down the ROOT branch; see the
counterexample).  A `null` or empty target, the literal `Root` and a
root-pattern id classify as ROOT; an OU-pattern id as
ORGANIZATIONAL_UNIT; a 12-digit id as ACCOUNT; and `orgtomate` throws
`Invalid Target Identifier` exactly when the target is a nonempty
string matching none of these shapes. -/
theorem classifyTarget_spec :
    classifyTarget none = .ok "ROOT" ∧
    (∀ s, s = "" ∨ s = "Root" ∨ matchRootPattern s = true →
      classifyTarget (some s) = .ok "ROOT") ∧
    (∀ s, matchOuPattern s = true →
      classifyTarget (some s) = .ok "ORGANIZATIONAL_UNIT") ∧
    (∀ s, matchAccountPattern s = true → classifyTarget (some s) = .ok "ACCOUNT") ∧
    (∀ s, (∃ e, classifyTarget (some s) = .error e) ↔
      (s ≠ "" ∧ s ≠ "Root" ∧ matchRootPattern s = false ∧ matchOuPattern s = false ∧
        matchAccountPattern s = false)) := by
  refine ⟨rfl, ?_, ?_, ?_, ?_⟩
  · intro s h
    rw [classifyTarget_some, if_pos (by rcases h with h | h | h <;> simp [h])]
  · intro s h
    rcases ouPat_excludes s h with ⟨h1, h2, h3⟩
    rw [classifyTarget_some, if_neg (by simp [h1, h2, h3]), if_pos h]
  · intro s h
    rcases acctPat_excludes s h with ⟨h1, h2, h3, h4⟩
    rw [classifyTarget_some, if_neg (by simp [h1, h2, h3]),
      if_neg (by simp [h4]), if_pos h]
  · intro s
    rw [classifyTarget_some]
    by_cases h1 : s = ""
    · simp [h1]
    · by_cases h2 : s = "Root"
      · simp [h1, h2]
      · by_cases h3 : matchRootPattern s = true
        · simp [h1, h2, h3]
        · by_cases h4 : matchOuPattern s = true
          · simp [h1, h2, h3, h4]
          · by_cases h5 : matchAccountPattern s = true
            · simp [h1, h2, h3, h4, h5]
            · simp [h1, h2, h3, h4, h5]

/-- Counterexample to claim C7 as stated: the empty-string target
matches none of the documented shapes (it is neither `null`, `Root`,
root-pattern, OU-pattern, nor 12-digit), yet `orgtomate` classifies it
as ROOT instead of rejecting it, because `!targetId` is also true of
the empty string. -/
theorem classifyTarget_empty_counterexample :
    classifyTarget (some "") = .ok "ROOT" ∧
    "" ≠ "Root" ∧ matchRootPattern "" = false ∧ matchOuPattern "" = false ∧
    matchAccountPattern "" = false :=
  ⟨rfl, by decide, rfl, rfl, rfl⟩

/-- Witness for claim C7 at concrete identifiers of each shape. -/
theorem classifyTarget_spec_witness :
    classifyTarget (some "r-ab12") = .ok "ROOT" ∧
    classifyTarget (some "ou-ab12-cdef3456") = .ok "ORGANIZATIONAL_UNIT" ∧
    classifyTarget (some "123456789012") = .ok "ACCOUNT" ∧
    (∃ e, classifyTarget (some "not-a-target!") = .error e) :=
  ⟨classifyTarget_spec.2.1 "r-ab12" (Or.inr (Or.inr (by decide))),
   classifyTarget_spec.2.2.1 "ou-ab12-cdef3456" (by decide),
   classifyTarget_spec.2.2.2.1 "123456789012" (by decide),
   (classifyTarget_spec.2.2.2.2 "not-a-target!").mpr (by decide)⟩

end Orgtomate
